import Mathlib

/-!
Verification development for the SMP-Sea-Ice calibration notebooks.

The alignment core (Part 1), the classifier post-processing (Part 3) and the
propagation-bias application (Part 5) are shallowly embedded below.  Numeric
values carried by profiles are modelled as rationals, except for the Part 5
radar-propagation helpers which use real-number powers.  Missing values (NaN)
are modelled as `Option` values.  Functions of the helper module `smpfunc`
whose bodies are not part of the repository snapshot are modelled from the
specification and say so in their doc comments.
-/

namespace SMPSeaIce

/-! ## Constants of the Part 1 notebook -/

/-- Half the height of the density cutter in mm. -/
def CUTTER_SIZE : ℕ := 15

/-- Delta height in mm for standardized SMP profiles. -/
def H_RESAMPLE : ℚ := 1

/-- Layer unit height in mm for SMP matching. -/
def L_RESAMPLE : ℚ := 50

/-- Max layer change in fraction of height. -/
def MAX_STRETCH_LAYER : ℚ := 3/4

/-- Max profile change in fraction of total height. -/
def MAX_STRETCH_OVERALL : ℚ := 3/20

/-- Number of scaling candidates generated for alignment testing. -/
def NUM_TESTS : ℕ := 10000

/-! ## Skill scores and candidate selection (Part 1, alignment cell)

`smpfunc.calc_skill` produces rows with columns `r`, `rmse`, `rmse_corr`,
`mae`; the notebook selects the winning candidate with
`retrieved_skill.sort_values(['r', 'rmse_corr'], ascending=[False, True]).head(1).index`.
Pandas sorts several keys with a stable lexicographic sort, so the selected
index is the earliest index whose key `(r descending, rmse_corr ascending)`
is optimal. -/

/-- One row of the `retrieved_skill` table: correlation, root-mean-square
error, bias-corrected root-mean-square error and mean absolute error. -/
structure SkillScore where
  r : ℚ
  rmse : ℚ
  rmse_corr : ℚ
  mae : ℚ
deriving DecidableEq, Inhabited

/-- A stretch plan is the ordered list of per-segment scale factors. -/
abbrev StretchPlan : Type := List ℚ

/-- Strict ranking order used by the selection: candidate `a` ranks strictly
before candidate `b` when it has larger correlation, or equal correlation and
smaller bias-corrected root-mean-square error. -/
def skillLt (a b : SkillScore) : Bool :=
  decide (b.r < a.r) || (decide (a.r = b.r) && decide (a.rmse_corr < b.rmse_corr))

/-- Left-to-right scan keeping the first best-ranked row together with its
position, mirroring the stable lexicographic sort of pandas. -/
def selectFrom (i : ℕ) (best : ℕ × SkillScore) : List SkillScore → ℕ × SkillScore
  | [] => best
  | s :: rest => selectFrom (i + 1) (if skillLt s best.2 then (i, s) else best) rest

/-- Index of the top-ranked skill row under the ranking by descending `r`
then ascending `rmse_corr`, as produced by `sort_values(...).head(1).index`. -/
def min_scaling_idx (skills : List SkillScore) : ℕ :=
  match skills with
  | [] => 0
  | s :: rest => (selectFrom 1 (0, s) rest).1

/-- The notebook keeps `random_tests[int(min_scaling_idx)]` as the winning plan. -/
def min_scaling_coeff (tests : List StretchPlan) (skills : List SkillScore) : StretchPlan :=
  tests.getD (min_scaling_idx skills) []

theorem skillLt_iff (a b : SkillScore) :
    skillLt a b = true ↔ b.r < a.r ∨ (a.r = b.r ∧ a.rmse_corr < b.rmse_corr) := by
  simp [skillLt]

theorem skillLt_false_iff (a b : SkillScore) :
    skillLt a b = false ↔ a.r ≤ b.r ∧ (a.r = b.r → b.rmse_corr ≤ a.rmse_corr) := by
  rw [← Bool.not_eq_true, skillLt_iff]
  constructor
  · intro h
    push_neg at h
    exact h
  · intro h
    push_neg
    exact h

theorem skillLt_irrefl (a : SkillScore) : skillLt a a = false := by
  rw [skillLt_false_iff]
  exact ⟨le_refl _, fun _ => le_refl _⟩

theorem skillLt_trans {a b c : SkillScore} (hab : skillLt a b = true)
    (hbc : skillLt b c = true) : skillLt a c = true := by
  rw [skillLt_iff] at hab hbc ⊢
  rcases hab with h1 | ⟨h1, h2⟩ <;> rcases hbc with h3 | ⟨h3, h4⟩
  · exact Or.inl (lt_trans h3 h1)
  · exact Or.inl (h3 ▸ h1)
  · exact Or.inl (h1 ▸ h3)
  · exact Or.inr ⟨h1.trans h3, lt_trans h2 h4⟩

theorem skillLt_not_trans {a b c : SkillScore} (hab : skillLt a b = false)
    (hbc : skillLt b c = false) : skillLt a c = false := by
  rw [skillLt_false_iff] at hab hbc ⊢
  obtain ⟨h1, h2⟩ := hab
  obtain ⟨h3, h4⟩ := hbc
  refine ⟨le_trans h1 h3, fun hac => ?_⟩
  have hb1 : a.r = b.r := le_antisymm h1 (hac ▸ h3)
  have hb2 : b.r = c.r := hb1 ▸ hac
  exact le_trans (h4 hb2) (h2 hb1)

theorem skillLt_shift {a b c : SkillScore} (hab : skillLt a b = true)
    (hac : skillLt a c = false) : skillLt b c = false := by
  cases hq : skillLt b c with
  | false => rfl
  | true =>
    have := skillLt_trans hab hq
    rw [hac] at this
    exact Bool.noConfusion this

/-- Shape of the scan result: it is either the starting accumulator or a
list element paired with its shifted position. -/
theorem selectFrom_shape (l : List SkillScore) (i : ℕ) (b : ℕ × SkillScore) :
    selectFrom i b l = b ∨
      ∃ j, ∃ hj : j < l.length, selectFrom i b l = (i + j, l.get ⟨j, hj⟩) := by
  induction l generalizing i b with
  | nil => exact Or.inl rfl
  | cons s rest ih =>
    simp only [selectFrom]
    by_cases hq : skillLt s b.2 = true
    · rw [if_pos hq]
      rcases ih (i + 1) (i, s) with h | ⟨j, hj, h⟩
      · refine Or.inr ⟨0, by simp, ?_⟩
        rw [h]
        simp
      · refine Or.inr ⟨j + 1, by simpa using Nat.succ_lt_succ hj, ?_⟩
        rw [h]
        simp [Nat.add_assoc, Nat.add_comm 1 j]
    · rw [if_neg hq]
      rcases ih (i + 1) b with h | ⟨j, hj, h⟩
      · exact Or.inl h
      · refine Or.inr ⟨j + 1, by simpa using Nat.succ_lt_succ hj, ?_⟩
        rw [h]
        simp [Nat.add_assoc, Nat.add_comm 1 j]

/-- Optimality of the scan result: neither the accumulator nor any traversed
row ranks strictly before it. -/
theorem selectFrom_opt (l : List SkillScore) (i : ℕ) (b : ℕ × SkillScore) :
    skillLt b.2 (selectFrom i b l).2 = false ∧
      ∀ s ∈ l, skillLt s (selectFrom i b l).2 = false := by
  induction l generalizing i b with
  | nil =>
    refine ⟨skillLt_irrefl _, fun s hs => absurd hs (List.not_mem_nil s)⟩
  | cons s rest ih =>
    simp only [selectFrom]
    by_cases hq : skillLt s b.2 = true
    · rw [if_pos hq]
      obtain ⟨h1, h2⟩ := ih (i + 1) (i, s)
      refine ⟨skillLt_shift hq h1, fun x hx => ?_⟩
      rcases List.mem_cons.mp hx with h | h
      · exact h ▸ h1
      · exact h2 x h
    · rw [if_neg hq]
      obtain ⟨h1, h2⟩ := ih (i + 1) b
      have hqf : skillLt s b.2 = false := Bool.eq_false_iff.mpr hq
      refine ⟨h1, fun x hx => ?_⟩
      rcases List.mem_cons.mp hx with h | h
      · exact h ▸ skillLt_not_trans hqf h1
      · exact h2 x h

/-- Claim C1: for every profile, the alignment search ranks the candidates by
descending correlation `r`, breaking ties by ascending bias-corrected RMSE
`rmse_corr`, and returns the stretch plan of the top-ranked candidate: the
selected index is in range, no candidate ranks strictly before the selected
one, and the returned plan is the candidate list entry at that index. -/
theorem C1_selection (tests : List StretchPlan) (skills : List SkillScore)
    (hne : skills ≠ []) :
    min_scaling_idx skills < skills.length ∧
    (∀ j, j < skills.length →
      skillLt (skills.getD j default) (skills.getD (min_scaling_idx skills) default) = false) ∧
    min_scaling_coeff tests skills = tests.getD (min_scaling_idx skills) [] := by
  cases hsk : skills with
  | nil => exact absurd hsk hne
  | cons s0 rest =>
    subst hsk
    have hshape := selectFrom_shape rest 1 (0, s0)
    have hval : (selectFrom 1 (0, s0) rest).2
        = (s0 :: rest).getD (selectFrom 1 (0, s0) rest).1 default := by
      rcases hshape with h | ⟨j, hj, h⟩
      · rw [h]
        simp
      · rw [h]
        have h1j : (1 : ℕ) + j = j + 1 := Nat.add_comm 1 j
        simp only [h1j, List.getD_cons_succ]
        simp [List.getD_eq_getElem?_getD, List.getElem?_eq_getElem hj]
    have hlen : (selectFrom 1 (0, s0) rest).1 < (s0 :: rest).length := by
      rcases hshape with h | ⟨j, hj, h⟩
      · rw [h]
        simp
      · rw [h]
        simp only [List.length_cons]
        omega
    refine ⟨hlen, ?_, rfl⟩
    intro j hj
    obtain ⟨h1, h2⟩ := selectFrom_opt rest 1 (0, s0)
    have hmin : min_scaling_idx (s0 :: rest) = (selectFrom 1 (0, s0) rest).1 := rfl
    rw [hmin, ← hval]
    cases j with
    | zero => exact h1
    | succ j =>
      have hj2 : j < rest.length := by simpa using hj
      have hget : (s0 :: rest).getD (j + 1) default = rest.getD j default := by
        simp [List.getD_cons_succ]
      rw [hget]
      refine h2 _ ?_
      rw [List.getD_eq_getElem?_getD, List.getElem?_eq_getElem hj2]
      exact List.getElem_mem hj2

/-- Witness for C1 at a concrete three-candidate skill table: the second
candidate (largest correlation, smaller tie-broken error) is selected. -/
theorem C1_selection_witness :
    ([⟨1, 0, 2, 0⟩, ⟨2, 0, 1, 0⟩, ⟨2, 0, 3, 0⟩] : List SkillScore) ≠ [] ∧
    min_scaling_idx [⟨1, 0, 2, 0⟩, ⟨2, 0, 1, 0⟩, ⟨2, 0, 3, 0⟩] <
      ([⟨1, 0, 2, 0⟩, ⟨2, 0, 1, 0⟩, ⟨2, 0, 3, 0⟩] : List SkillScore).length ∧
    min_scaling_coeff [[1], [2], [3]] [⟨1, 0, 2, 0⟩, ⟨2, 0, 1, 0⟩, ⟨2, 0, 3, 0⟩]
      = [2] := by
  have h := C1_selection [[1], [2], [3]]
    [⟨1, 0, 2, 0⟩, ⟨2, 0, 1, 0⟩, ⟨2, 0, 3, 0⟩] (by simp)
  refine ⟨by simp, h.1, ?_⟩
  rw [h.2.2]
  decide

/-! ## Filtering of results (Part 1, filtering cell)

The comparison table is cleaned with
`result = comparison_df.dropna()`,
`result = result[result['count_samp'] >= CUTTER_SIZE*2]`,
`result = result[~result['TYPE'].isin(['N', 'I'])]`.
Rows carry the columns used by the filters; a missing value (NaN) is a
`none`. -/

/-- Layer type labels recorded with each density-cutter sample. -/
inductive LayerType
  | N | I | R | F | H
deriving DecidableEq

/-- One row of `comparison_df` restricted to the columns the filters read. -/
structure ComparisonRow where
  mean_samp : Option ℚ
  count_samp : ℕ
  RHO : Option ℚ
  TYPE : LayerType
deriving DecidableEq

/-- The `dropna()` criterion on the modelled columns: every value present. -/
def rowComplete (r : ComparisonRow) : Bool :=
  r.mean_samp.isSome && r.RHO.isSome

/-- Embeds the filtering cell: drop incomplete rows, drop rows whose enclosed
sample count is below `CUTTER_SIZE * 2`, drop new snow and ice layer types. -/
def filterResult (cutter : ℕ) (rows : List ComparisonRow) : List ComparisonRow :=
  ((rows.filter rowComplete).filter
      (fun r => decide (cutter * 2 ≤ r.count_samp))).filter
    (fun r => !(decide (r.TYPE = LayerType.N) || decide (r.TYPE = LayerType.I)))

/-- Counterexample to claim C2 as stated: a window with exactly
`2 * cutterHalfHeight` enclosed points is not always retained — here a
complete row with 30 enclosed points but layer type new snow is removed by
the layer-type filter, so the filtered table is empty. -/
theorem C2_count_counterexample :
    (⟨some 300, CUTTER_SIZE * 2, some 310, LayerType.N⟩ : ComparisonRow).count_samp
        = 2 * CUTTER_SIZE ∧
    filterResult CUTTER_SIZE [⟨some 300, CUTTER_SIZE * 2, some 310, LayerType.N⟩]
        = [] := by
  decide

/-- Claim C2 (amended): every row of the filtered table has at least
`2 * cutterHalfHeight` enclosed points; a row with exactly
`2 * cutterHalfHeight - 1` points is excluded; and a row with exactly
`2 * cutterHalfHeight` points is retained provided it is complete (no NaN)
and its layer type is neither new snow nor ice. -/
theorem C2_count_filter (cutter : ℕ) (rows : List ComparisonRow) (r : ComparisonRow) :
    (r ∈ filterResult cutter rows → cutter * 2 ≤ r.count_samp) ∧
    (r.count_samp + 1 = cutter * 2 → r ∉ filterResult cutter rows) ∧
    (r ∈ rows → rowComplete r = true → r.TYPE ≠ LayerType.N → r.TYPE ≠ LayerType.I →
      r.count_samp = cutter * 2 → r ∈ filterResult cutter rows) := by
  refine ⟨?_, ?_, ?_⟩
  · intro hmem
    unfold filterResult at hmem
    have h2 := (List.mem_filter.mp hmem).1
    have h3 := (List.mem_filter.mp h2).2
    exact of_decide_eq_true h3
  · intro hcount hmem
    unfold filterResult at hmem
    have h2 := (List.mem_filter.mp hmem).1
    have h3 := (List.mem_filter.mp h2).2
    have := of_decide_eq_true h3
    omega
  · intro hmem hcomp hN hI hcount
    unfold filterResult
    refine List.mem_filter.mpr ⟨List.mem_filter.mpr ⟨List.mem_filter.mpr ⟨hmem, hcomp⟩, ?_⟩, ?_⟩
    · exact decide_eq_true (hcount ▸ le_refl _)
    · simp [hN, hI]

/-- Witness for C2 at a concrete two-row table: the complete depth-hoar row
with exactly 30 enclosed points is retained by the filters. -/
theorem C2_count_filter_witness :
    (⟨some 300, 30, some 320, LayerType.H⟩ : ComparisonRow) ∈
      filterResult CUTTER_SIZE
        [⟨some 290, 29, some 310, LayerType.H⟩, ⟨some 300, 30, some 320, LayerType.H⟩] :=
  (C2_count_filter CUTTER_SIZE
      [⟨some 290, 29, some 310, LayerType.H⟩, ⟨some 300, 30, some 320, LayerType.H⟩]
      ⟨some 300, 30, some 320, LayerType.H⟩).2.2
    (by decide) (by decide) (by decide) (by decide) (by decide)

/-! ## The per-profile batch loop (Part 1, alignment cell)

`for smp in smp_data:` iterates the alignment over all profiles.  The loop
body contains no exception handling; in particular
`pit_df['ID'].values[0]` raises an IndexError when no snow-pit record has a
matching SMPF number, which propagates and aborts the whole loop.  The loop
is embedded with an `Except` that propagates the first failure. -/

/-- A snow-pit summary record: its site id and the last digits of the
corresponding SMP file name. -/
structure PitRecord where
  id : ℕ
  smpf : ℕ
deriving DecidableEq

/-- An SMP profile, reduced to the file number used for the pit lookup. -/
structure SmpProfile where
  smpf : ℕ
deriving DecidableEq

/-- Per-profile failure modes of the loop body. -/
inductive ProfileFailure
  | missingGroundTruth (smpf : ℕ)
deriving DecidableEq

/-- Selecting the matching pit:
`pit_summary[pit_summary['SMPF'] == smp_file_num]` followed by
`pit_df['ID'].values[0]`, which fails when no record matches. -/
def matchPit (pits : List PitRecord) (smpf : ℕ) : Except ProfileFailure PitRecord :=
  match pits.filter (fun p => decide (p.smpf = smpf)) with
  | [] => Except.error (ProfileFailure.missingGroundTruth smpf)
  | p :: _ => Except.ok p

/-- The alignment batch loop: each iteration looks up the matching pit and
appends that profile's result; an uncaught failure aborts the remaining
iterations. -/
def batchLoop (pits : List PitRecord) : List SmpProfile → Except ProfileFailure (List ℕ)
  | [] => Except.ok []
  | smp :: rest =>
    match matchPit pits smp.smpf with
    | Except.error e => Except.error e
    | Except.ok pit =>
      match batchLoop pits rest with
      | Except.error e => Except.error e
      | Except.ok results => Except.ok (pit.id :: results)

/-- Counterexample to claim C5 as stated: in a two-profile batch whose first
profile has no matching snow-pit record, the loop aborts with that failure
and produces no result for the second profile, although the second profile
alone processes fine. -/
theorem C5_isolation_counterexample :
    batchLoop [⟨1, 100⟩] [⟨200⟩, ⟨100⟩]
        = Except.error (ProfileFailure.missingGroundTruth 200) ∧
    batchLoop [⟨1, 100⟩] [⟨100⟩] = Except.ok [1] :=
  ⟨rfl, rfl⟩

/-- Claim C5 (amended): per-profile failures are not isolated — whenever any
profile of the batch fails its snow-pit lookup, the whole batch loop aborts
with an error and returns no per-profile results at all. -/
theorem C5_batch_aborts (pits : List PitRecord) (profiles : List SmpProfile)
    (smp : SmpProfile) (e : ProfileFailure) (hmem : smp ∈ profiles)
    (hfail : matchPit pits smp.smpf = Except.error e) :
    ∃ err, batchLoop pits profiles = Except.error err := by
  induction profiles with
  | nil => exact absurd hmem (List.not_mem_nil smp)
  | cons p rest ih =>
    rcases List.mem_cons.mp hmem with h | h
    · subst h
      exact ⟨e, by simp [batchLoop, hfail]⟩
    · cases hp : matchPit pits p.smpf with
      | error e2 => exact ⟨e2, by simp [batchLoop, hp]⟩
      | ok pit =>
        obtain ⟨err, herr⟩ := ih h
        exact ⟨err, by simp [batchLoop, hp, herr]⟩

/-- Witness for C5 at the concrete two-profile batch: the loop result is an
error, so the remaining profile is never processed. -/
theorem C5_batch_aborts_witness :
    ∃ err, batchLoop [⟨1, 100⟩] [⟨200⟩, ⟨100⟩] = Except.error err :=
  C5_batch_aborts [⟨1, 100⟩] [⟨200⟩, ⟨100⟩] ⟨200⟩
    (ProfileFailure.missingGroundTruth 200) (by simp) rfl

/-! ## Resampling onto a common depth axis (Part 1, alignment cell)

The alignment cell builds
`depth_array = np.arange(0, p2015.distance.max() + smp_height_diff, H_RESAMPLE)`
and interpolates density, median force and structural length onto it with
`np.interp`, which linearly interpolates inside the support of the source
positions and extrapolates flat (boundary value) outside it. -/

/-- Linear interpolation over a table of (position, value) pairs with
increasing positions, flat extrapolation outside the table, following the
semantics of `np.interp`. -/
def interp (x : ℚ) : List (ℚ × ℚ) → ℚ
  | [] => 0
  | [(_, f0)] => f0
  | (x0, f0) :: (x1, f1) :: rest =>
    if x ≤ x0 then f0
    else if x ≤ x1 then f0 + (f1 - f0) * (x - x0) / (x1 - x0)
    else interp x ((x1, f1) :: rest)

/-- The call `np.arange(0, stop, step)`: consecutive multiples of `step`
strictly below `stop`. -/
def arange (stop step : ℚ) : List ℚ :=
  List.map (fun i : ℕ => (i : ℚ) * step) (List.range (Int.toNat ⌈stop / step⌉))

/-- Maximum of a pandas series, as used by `p2015.distance.max()`. -/
def seriesMax (l : List ℚ) : ℚ := l.foldl max (l.headD 0)

/-- The resampled co-located arrays `smp_df` of the alignment cell. -/
structure SmpDf where
  distance : List ℚ
  density : List ℚ
  force_median : List ℚ
  l : List ℚ
deriving DecidableEq

/-- Embeds the resampling block of the alignment cell: one shared depth axis
from zero to the profile height plus the measured height difference, and
`np.interp` of density, median force and structural length onto it. -/
def resampleProfile (dist den force ell : List ℚ) (heightDiff hRes : ℚ) : SmpDf :=
  let depth_array := arange (seriesMax dist + heightDiff) hRes
  { distance := depth_array
  , density := depth_array.map (fun d => interp d (dist.zip den))
  , force_median := depth_array.map (fun d => interp d (dist.zip force))
  , l := depth_array.map (fun d => interp d (dist.zip ell)) }

/-- In a table whose positions form an increasing chain, the head position is
at most the last position. -/
theorem chain_head_le_last (l : List (ℚ × ℚ)) :
    ∀ (hne : l ≠ []) (hchain : List.Chain' (fun p q => p.1 < q.1) l),
      (l.head hne).1 ≤ (l.getLast hne).1 := by
  induction l with
  | nil => intro hne; exact absurd rfl hne
  | cons p rest ih =>
    intro hne hchain
    cases rest with
    | nil => simp
    | cons p1 rest2 =>
      have hrne : p1 :: rest2 ≠ [] := List.cons_ne_nil p1 rest2
      obtain ⟨h01, hchain2⟩ := List.chain'_cons.mp hchain
      have := ih hrne hchain2
      rw [List.getLast_cons hrne, List.head_cons]
      calc p.1 ≤ p1.1 := le_of_lt h01
        _ = ((p1 :: rest2).head hrne).1 := by rw [List.head_cons]
        _ ≤ ((p1 :: rest2).getLast hrne).1 := this

/-- `np.interp` at or beyond the last recorded position returns the last
recorded value (flat extrapolation). -/
theorem interp_flat_right (pairs : List (ℚ × ℚ)) :
    ∀ (hne : pairs ≠ [])
      (hchain : List.Chain' (fun p q => p.1 < q.1) pairs) (x : ℚ),
      (pairs.getLast hne).1 ≤ x → interp x pairs = (pairs.getLast hne).2 := by
  induction pairs with
  | nil => intro hne; exact absurd rfl hne
  | cons p rest ih =>
    intro hne hchain x hx
    cases rest with
    | nil => simp [interp]
    | cons p1 rest2 =>
      have hrne : p1 :: rest2 ≠ [] := List.cons_ne_nil p1 rest2
      obtain ⟨h01, hchain2⟩ := List.chain'_cons.mp hchain
      rw [List.getLast_cons hrne] at hx ⊢
      have hlast : p1.1 ≤ ((p1 :: rest2).getLast hrne).1 := by
        have := chain_head_le_last (p1 :: rest2) hrne hchain2
        rwa [List.head_cons] at this
      have hx0 : ¬ x ≤ p.1 := by
        have : p.1 < p1.1 := h01
        push_neg
        calc p.1 < p1.1 := this
          _ ≤ ((p1 :: rest2).getLast hrne).1 := hlast
          _ ≤ x := hx
      by_cases hx1 : x ≤ p1.1
      · have hxe : x = p1.1 := le_antisymm hx1 (le_trans hlast hx)
        have hrest2 : rest2 = [] := by
          cases rest2 with
          | nil => rfl
          | cons q rest3 =>
            exfalso
            have hqne : q :: rest3 ≠ [] := List.cons_ne_nil q rest3
            obtain ⟨h12, hchain3⟩ := List.chain'_cons.mp hchain2
            have hq : q.1 ≤ ((q :: rest3).getLast hqne).1 := by
              have := chain_head_le_last (q :: rest3) hqne hchain3
              rwa [List.head_cons] at this
            rw [List.getLast_cons hqne] at hx
            have : p1.1 < x := lt_of_lt_of_le h12 (le_trans hq hx)
            exact absurd hxe (ne_of_gt this)
        subst hrest2
        simp only [interp, if_neg hx0, if_pos hx1, List.getLast_singleton]
        have hd : p1.1 - p.1 ≠ 0 := sub_ne_zero.mpr (ne_of_gt h01)
        rw [hxe, mul_div_assoc, div_self hd, mul_one]
        ring
      · have hstep : interp x (p :: p1 :: rest2) = interp x (p1 :: rest2) := by
          simp only [interp, if_neg hx0, if_neg hx1]
        rw [hstep]
        exact ih hrne hchain2 x hx

/-- Reading an element of a mapped list at an in-range position. -/
theorem getD_map_lt (f : ℚ → ℚ) (l : List ℚ) (i : ℕ) (h : i < l.length) :
    (l.map f).getD i 0 = f (l.getD i 0) := by
  rw [List.getD_eq_getElem?_getD, List.getD_eq_getElem?_getD, List.getElem?_map,
    List.getElem?_eq_getElem h]
  rfl

/-- Claim C7: the resampler extrapolates flat beyond the last recorded
position of a profile with increasing positions (first part), and the three
co-located quantities are resampled onto the identical shared depth axis, so
the arrays have equal length and their entries at each index are the
interpolations at the same depth (second part). -/
theorem C7_resampler :
    (∀ (pairs : List (ℚ × ℚ)) (hne : pairs ≠ [])
        (hchain : List.Chain' (fun p q => p.1 < q.1) pairs) (x : ℚ),
        (pairs.getLast hne).1 ≤ x → interp x pairs = (pairs.getLast hne).2) ∧
    (∀ (dist den force ell : List ℚ) (heightDiff hRes : ℚ),
        (resampleProfile dist den force ell heightDiff hRes).density.length
            = (resampleProfile dist den force ell heightDiff hRes).distance.length ∧
        (resampleProfile dist den force ell heightDiff hRes).force_median.length
            = (resampleProfile dist den force ell heightDiff hRes).distance.length ∧
        (resampleProfile dist den force ell heightDiff hRes).l.length
            = (resampleProfile dist den force ell heightDiff hRes).distance.length ∧
        ∀ i, i < (resampleProfile dist den force ell heightDiff hRes).distance.length →
          (resampleProfile dist den force ell heightDiff hRes).density.getD i 0
              = interp ((resampleProfile dist den force ell heightDiff hRes).distance.getD i 0)
                  (dist.zip den) ∧
          (resampleProfile dist den force ell heightDiff hRes).force_median.getD i 0
              = interp ((resampleProfile dist den force ell heightDiff hRes).distance.getD i 0)
                  (dist.zip force) ∧
          (resampleProfile dist den force ell heightDiff hRes).l.getD i 0
              = interp ((resampleProfile dist den force ell heightDiff hRes).distance.getD i 0)
                  (dist.zip ell)) := by
  constructor
  · exact interp_flat_right
  · intro dist den force ell heightDiff hRes
    refine ⟨List.length_map _ _, List.length_map _ _, List.length_map _ _, ?_⟩
    intro i hi
    have hi2 : i < (arange (seriesMax dist + heightDiff) hRes).length := hi
    exact ⟨getD_map_lt _ _ i hi2, getD_map_lt _ _ i hi2, getD_map_lt _ _ i hi2⟩

/-- Witness for C7: a query depth beyond the last recorded depth of the
table `[(0, 5), (10, 7)]` returns the boundary value 7, and at a concrete
resampled profile the first density entry equals the interpolation of the
source table at the first shared depth. -/
theorem C7_resampler_witness :
    interp 25 [((0 : ℚ), (5 : ℚ)), (10, 7)] = 7 ∧
    (resampleProfile [0, 10] [5, 7] [1, 2] [3, 4] 5 1).density.getD 0 0
        = interp ((resampleProfile [0, 10] [5, 7] [1, 2] [3, 4] 5 1).distance.getD 0 0)
            (([0, 10] : List ℚ).zip [5, 7]) := by
  have hne : ([((0 : ℚ), (5 : ℚ)), (10, 7)]) ≠ [] := by simp
  have hlast : ([((0 : ℚ), (5 : ℚ)), (10, 7)]).getLast hne = (10, 7) := rfl
  have hchain : List.Chain' (fun p q : ℚ × ℚ => p.1 < q.1)
      [((0 : ℚ), (5 : ℚ)), (10, 7)] :=
    List.chain'_cons.mpr ⟨by norm_num, List.chain'_singleton _⟩
  constructor
  · have h := C7_resampler.1 [((0 : ℚ), (5 : ℚ)), (10, 7)] hne hchain 25
      (by rw [hlast]; norm_num)
    rw [hlast] at h
    exact h
  · have h1 : seriesMax [0, 10] = 10 := by
      norm_num [seriesMax, max_def]
    have hlen : 0 < (resampleProfile [0, 10] [5, 7] [1, 2] [3, 4] 5 1).distance.length := by
      show 0 < (arange (seriesMax [0, 10] + 5) 1).length
      rw [h1]
      simp only [arange, List.length_map, List.length_range]
      norm_num
    exact ((C7_resampler.2 [0, 10] [5, 7] [1, 2] [3, 4] 5 1).2.2.2 0 hlen).1

/-! ## Profile scaling and sample extraction (helpers of `smpfunc`)

The bodies of `smpfunc.scale_profile` and `smpfunc.extract_samples` are not
part of the repository snapshot; they are modelled from sections 4.3 and 4.4
of the specification. -/

/-- Cumulative scaled length of the first `k` nominal segments of a plan. -/
def segPrefix (plan : List ℚ) (lRes : ℚ) (k : ℕ) : ℚ :=
  ((plan.take k).map (fun f => f * lRes)).sum

/-- Scaled position of one depth: the point in segment `k` keeps its segment
membership, prior segments contribute their scaled spans, and positions
scale linearly inside the segment. -/
def scaledDepth (plan : List ℚ) (lRes : ℚ) (d : ℚ) : ℚ :=
  let k := Int.toNat ⌊d / lRes⌋
  segPrefix plan lRes k + plan.getD k 1 * (d - (k : ℚ) * lRes)

/-- Modelled from the spec: `smpfunc.scale_profile` is missing from the
snapshot.  Following section 4.3, it applies a stretch plan to a depth axis,
multiplying each segment span by its plan factor and offsetting later
segments by the cumulative change, while the carried values ride along. -/
def scale_profile (plan : List ℚ) (dist vals : List ℚ) (lRes hRes : ℚ) :
    List ℚ × List ℚ :=
  (dist.map (scaledDepth plan lRes), vals)

/-- One extracted window: enclosed-point count and mean of enclosed values. -/
structure ExtractedSample where
  count_samp : ℕ
  mean_samp : Option ℚ
deriving DecidableEq

/-- Modelled from the spec: `smpfunc.extract_samples` is missing from the
snapshot.  Following section 4.4, every window center yields the count of
profile points with depth in `[center - halfHeight, center + halfHeight]`
and the arithmetic mean of their values, `none` when no point is enclosed. -/
def extract_samples (dist vals : List ℚ) (centers : List ℚ) (halfHeight : ℚ) :
    List ExtractedSample :=
  centers.map (fun c =>
    let pts := (dist.zip vals).filter
      (fun p => decide (c - halfHeight ≤ p.1) && decide (p.1 ≤ c + halfHeight))
    { count_samp := pts.length
    , mean_samp := if pts.length = 0 then none
        else some ((pts.map Prod.snd).sum / (pts.length : ℚ)) })

/-- The per-profile output of the alignment: the winning plan and the window
samples of each co-located quantity extracted from profiles scaled with it. -/
structure AlignedResult where
  plan : StretchPlan
  density_samples : List ExtractedSample
  l_samples : List ExtractedSample
  force_samples : List ExtractedSample

/-- Embeds the per-profile orchestration of the alignment cell: scale the
density profile with every candidate plan, extract the window samples and
score them, select the winner with `min_scaling_idx`, then reapply the
winning plan to the structural length and the median force arrays and
extract their window samples.  The skill computation `smpfunc.calc_skill`
is abstracted as the argument `skillOf`. -/
def processProfile (skillOf : List ExtractedSample → SkillScore)
    (tests : List StretchPlan) (dist den force ell centers : List ℚ)
    (lRes hRes cutter : ℚ) : AlignedResult :=
  let scaled := tests.map (fun t => scale_profile t dist den lRes hRes)
  let compare := scaled.map (fun p => extract_samples p.1 p.2 centers cutter)
  let skills := compare.map skillOf
  let plan := min_scaling_coeff tests skills
  let sl := scale_profile plan dist ell lRes hRes
  let sf := scale_profile plan dist force lRes hRes
  { plan := plan
  , density_samples := compare.getD (min_scaling_idx skills) []
  , l_samples := extract_samples sl.1 sl.2 centers cutter
  , force_samples := extract_samples sf.1 sf.2 centers cutter }

/-- Reading an element of a mapped list at an in-range position, at any
element types. -/
theorem getD_map_of_lt {α β : Type} (f : α → β) (l : List α) (i : ℕ)
    (dA : α) (dB : β) (h : i < l.length) :
    (l.map f).getD i dB = f (l.getD i dA) := by
  rw [List.getD_eq_getElem?_getD, List.getD_eq_getElem?_getD, List.getElem?_map,
    List.getElem?_eq_getElem h]
  rfl

/-- Claim C3: after the best candidate is selected for a profile, the very
same winning plan is the one reapplied to every co-located quantity: the
returned plan is the selected candidate, the scored density samples are the
extraction of the density profile scaled with that plan, and the structural
length and median force samples are extractions of profiles scaled with the
identical plan. -/
theorem C3_reapply (skillOf : List ExtractedSample → SkillScore)
    (tests : List StretchPlan) (dist den force ell centers : List ℚ)
    (lRes hRes cutter : ℚ)
    (hk : min_scaling_idx (((tests.map (fun t => scale_profile t dist den lRes hRes)).map
        (fun p => extract_samples p.1 p.2 centers cutter)).map skillOf) < tests.length) :
    (processProfile skillOf tests dist den force ell centers lRes hRes cutter).plan
        = tests.getD (min_scaling_idx (((tests.map
            (fun t => scale_profile t dist den lRes hRes)).map
            (fun p => extract_samples p.1 p.2 centers cutter)).map skillOf)) [] ∧
    (processProfile skillOf tests dist den force ell centers lRes hRes cutter).density_samples
        = extract_samples
            (scale_profile (processProfile skillOf tests dist den force ell centers lRes hRes cutter).plan
              dist den lRes hRes).1
            (scale_profile (processProfile skillOf tests dist den force ell centers lRes hRes cutter).plan
              dist den lRes hRes).2
            centers cutter ∧
    (processProfile skillOf tests dist den force ell centers lRes hRes cutter).l_samples
        = extract_samples
            (scale_profile (processProfile skillOf tests dist den force ell centers lRes hRes cutter).plan
              dist ell lRes hRes).1
            (scale_profile (processProfile skillOf tests dist den force ell centers lRes hRes cutter).plan
              dist ell lRes hRes).2
            centers cutter ∧
    (processProfile skillOf tests dist den force ell centers lRes hRes cutter).force_samples
        = extract_samples
            (scale_profile (processProfile skillOf tests dist den force ell centers lRes hRes cutter).plan
              dist force lRes hRes).1
            (scale_profile (processProfile skillOf tests dist den force ell centers lRes hRes cutter).plan
              dist force lRes hRes).2
            centers cutter := by
  refine ⟨rfl, ?_, rfl, rfl⟩
  show ((tests.map (fun t => scale_profile t dist den lRes hRes)).map
      (fun p => extract_samples p.1 p.2 centers cutter)).getD
      (min_scaling_idx (((tests.map (fun t => scale_profile t dist den lRes hRes)).map
        (fun p => extract_samples p.1 p.2 centers cutter)).map skillOf)) [] = _
  rw [getD_map_of_lt (fun p => extract_samples p.1 p.2 centers cutter)
      (tests.map (fun t => scale_profile t dist den lRes hRes)) _
      (([], []) : List ℚ × List ℚ) [] (by rw [List.length_map]; exact hk)]
  rw [getD_map_of_lt (fun t => scale_profile t dist den lRes hRes) tests _
      [] (([], []) : List ℚ × List ℚ) hk]
  rfl

/-- Witness for C3 at a one-candidate search with a constant skill function:
the selected index is in range and the returned plan is the sole candidate. -/
theorem C3_reapply_witness :
    min_scaling_idx ((((([[1]] : List StretchPlan)).map
        (fun t => scale_profile t [0] [5] 50 1)).map
        (fun p => extract_samples p.1 p.2 [0] 15)).map
        (fun _ => (⟨1, 0, 0, 0⟩ : SkillScore))) < ([[1]] : List StretchPlan).length ∧
    (processProfile (fun _ => (⟨1, 0, 0, 0⟩ : SkillScore))
        [[1]] [0] [5] [2] [3] [0] 50 1 15).plan
      = ([[1]] : List StretchPlan).getD (min_scaling_idx (((([[1]] : List StretchPlan).map
          (fun t => scale_profile t [0] [5] 50 1)).map
          (fun p => extract_samples p.1 p.2 [0] 15)).map
          (fun _ => (⟨1, 0, 0, 0⟩ : SkillScore)))) [] := by
  have hk : min_scaling_idx ((((([[1]] : List StretchPlan)).map
      (fun t => scale_profile t [0] [5] 50 1)).map
      (fun p => extract_samples p.1 p.2 [0] 15)).map
      (fun _ => (⟨1, 0, 0, 0⟩ : SkillScore))) < ([[1]] : List StretchPlan).length :=
    Nat.lt_of_lt_of_le Nat.zero_lt_one (le_of_eq rfl)
  exact ⟨hk, (C3_reapply (fun _ => ⟨1, 0, 0, 0⟩) [[1]] [0] [5] [2] [3] [0] 50 1 15 hk).1⟩

/-! ## Stretch plan generation (`smpfunc.random_stretch`)

The generator body is not part of the repository snapshot; it is modelled
from section 4.2 of the specification: draw per-segment factors uniformly
within the layer bound, compute the whole-profile net stretch, and
regenerate (reject and retry) while the overall bound is violated. -/

/-- Net stretch of a plan: the average per-segment deviation from one, which
for equal nominal segments equals the relative change of total length. -/
def netStretch (plan : List ℚ) : ℚ :=
  ((plan.map (fun f => f - 1)).sum) / (plan.length : ℚ)

/-- Whether one factor respects the per-layer bound. -/
def factorInRange (maxLayer f : ℚ) : Bool :=
  decide (1 - maxLayer ≤ f) && decide (f ≤ 1 + maxLayer)

/-- Validity of a plan: all factors within the layer bound and the absolute
net stretch within the overall bound (boundary included). -/
def planValid (maxOverall maxLayer : ℚ) (plan : List ℚ) : Bool :=
  plan.all (factorInRange maxLayer) && decide (|netStretch plan| ≤ maxOverall)

/-- Modelled from the spec: `smpfunc.random_stretch` is missing from the
snapshot.  The random draws of the seeded source are supplied as the stream
`draws`; the generator returns the first valid draw unchanged (reject and
retry, never clipping), and gives up when the stream is exhausted. -/
def random_stretch (maxOverall maxLayer : ℚ) : List (List ℚ) → Option (List ℚ)
  | [] => none
  | d :: ds =>
    if planValid maxOverall maxLayer d then some d
    else random_stretch maxOverall maxLayer ds

/-- Every plan the generator returns is valid. -/
theorem random_stretch_valid {maxOverall maxLayer : ℚ} :
    ∀ (draws : List (List ℚ)) (p : List ℚ),
      random_stretch maxOverall maxLayer draws = some p →
      planValid maxOverall maxLayer p = true := by
  intro draws
  induction draws with
  | nil =>
    intro p h
    exact absurd h (by simp [random_stretch])
  | cons d ds ih =>
    intro p h
    by_cases hv : planValid maxOverall maxLayer d = true
    · rw [random_stretch, if_pos hv] at h
      cases h
      exact hv
    · rw [random_stretch, if_neg hv] at h
      exact ih p h

/-- Claim C6: every plan returned by the generator has all per-segment
factors in `[1 - maxLayerStretch, 1 + maxLayerStretch]` and absolute net
stretch at most `maxOverallStretch`; a draw whose net stretch is exactly at
the boundary is accepted as-is, while a draw exceeding the bound by any
positive epsilon is rejected and the generator regenerates from the rest of
the stream instead of clipping it. -/
theorem C6_plan_validity (M L eps : ℚ) (draws : List (List ℚ)) (p : List ℚ)
    (hp : random_stretch M L draws = some p) (heps : 0 < eps) :
    (∀ f ∈ p, 1 - L ≤ f ∧ f ≤ 1 + L) ∧
    |netStretch p| ≤ M ∧
    (∀ q, q.all (factorInRange L) = true → |netStretch q| = M →
      ∀ ds, random_stretch M L (q :: ds) = some q) ∧
    (∀ q, |netStretch q| = M + eps →
      planValid M L q = false ∧
      ∀ ds, random_stretch M L (q :: ds) = random_stretch M L ds) := by
  have hvalid := random_stretch_valid draws p hp
  rw [planValid, Bool.and_eq_true, decide_eq_true_eq] at hvalid
  obtain ⟨hall, hnet⟩ := hvalid
  refine ⟨?_, hnet, ?_, ?_⟩
  · intro f hf
    have := (List.all_eq_true.mp hall) f hf
    rw [factorInRange, Bool.and_eq_true, decide_eq_true_eq, decide_eq_true_eq] at this
    exact this
  · intro q hq hqnet ds
    have hv : planValid M L q = true := by
      rw [planValid, Bool.and_eq_true, decide_eq_true_eq]
      exact ⟨hq, le_of_eq hqnet⟩
    rw [random_stretch, if_pos hv]
  · intro q hqnet
    have hv : planValid M L q = false := by
      rw [planValid, Bool.and_eq_false_iff]
      right
      rw [decide_eq_false_iff_not, not_le, hqnet]
      exact lt_add_of_pos_right M heps
    exact ⟨hv, fun ds => by rw [random_stretch, if_neg (by rw [hv]; exact Bool.false_ne_true)]⟩

/-- Witness for C6 with the notebook bounds: a stream whose single draw is
the identity two-segment plan yields that plan, whose factors respect the
layer bound and whose net stretch is zero. -/
theorem C6_plan_validity_witness :
    (∀ f ∈ ([1, 1] : List ℚ), 1 - MAX_STRETCH_LAYER ≤ f ∧ f ≤ 1 + MAX_STRETCH_LAYER) ∧
    |netStretch [1, 1]| ≤ MAX_STRETCH_OVERALL := by
  have hp : random_stretch MAX_STRETCH_OVERALL MAX_STRETCH_LAYER [[1, 1]] = some [1, 1] := by
    rw [random_stretch, if_pos]
    rw [planValid, Bool.and_eq_true, decide_eq_true_eq]
    constructor
    · rw [List.all_eq_true]
      intro f hf
      rw [factorInRange, Bool.and_eq_true, decide_eq_true_eq, decide_eq_true_eq]
      rcases List.mem_cons.mp hf with h | h
      · subst h
        norm_num [MAX_STRETCH_LAYER]
      · rcases List.mem_cons.mp h with h2 | h2
        · subst h2
          norm_num [MAX_STRETCH_LAYER]
        · exact absurd h2 (List.not_mem_nil f)
    · norm_num [netStretch, MAX_STRETCH_OVERALL]
  have h := C6_plan_validity MAX_STRETCH_OVERALL MAX_STRETCH_LAYER (1/100)
    [[1, 1]] [1, 1] hp (by norm_num)
  exact ⟨h.1, h.2.1⟩

/-! ## Determinism of the seeded search (Part 1)

With `paper_conditions` set, `np.random.seed(2019)` fixes the global random
stream before the alignment runs.  Modelled from the spec: the seeded numpy
generator is replaced by an explicit deterministic congruential stream, so
the full search is a pure function of the seed, the profile and the window
set. -/

/-- Modelled from the spec: one step of the seeded random source standing in
for numpy's global generator after `np.random.seed`. -/
def nextRand (s : ℕ) : ℕ := (1103515245 * s + 12345) % 2147483648

/-- The generator state after `n` steps of the stream. -/
def iterRand (s : ℕ) : ℕ → ℕ
  | 0 => s
  | n + 1 => nextRand (iterRand s n)

/-- One per-segment factor drawn within the layer bound from one raw draw. -/
def toFactor (maxLayer : ℚ) (r : ℕ) : ℚ :=
  1 - maxLayer + 2 * maxLayer * ((r % 1001 : ℕ) : ℚ) / 1000

/-- The per-segment factor draws of one candidate attempt. -/
def drawSegment (maxLayer : ℚ) (s numSeg : ℕ) : List ℚ :=
  List.map (fun j : ℕ => toFactor maxLayer (iterRand s (j + 1))) (List.range numSeg)

/-- The bounded reject-and-retry stream of one candidate. -/
def drawAttempts (maxLayer : ℚ) (s numSeg fuel : ℕ) : List (List ℚ) :=
  List.map (fun a : ℕ => drawSegment maxLayer (iterRand s (a * numSeg)) numSeg)
    (List.range fuel)

/-- The candidate plans generated from a seed: each of the `numTests`
candidates draws from a seed-determined position of the stream and keeps the
first draw passing the bound checks. -/
def generatePlans (seed numSeg numTests fuel : ℕ) (M L : ℚ) : List StretchPlan :=
  List.map (fun i : ℕ =>
      (random_stretch M L
          (drawAttempts L (iterRand seed (i * numSeg * fuel)) numSeg fuel)).getD
        (List.replicate numSeg 1))
    (List.range numTests)

/-- Outcome of one full alignment search over a profile. -/
structure SearchOutcome where
  candidates : List StretchPlan
  plan : StretchPlan
  skills : List SkillScore
deriving DecidableEq

/-- The full search as a function of the seed: generate the candidate set,
score every candidate on the scaled density profile against the windows,
and select the winner.  `smpfunc.calc_skill` is abstracted as `skillOf`. -/
def alignmentSearch (skillOf : List ExtractedSample → SkillScore) (seed : ℕ)
    (numSeg numTests fuel : ℕ) (M L : ℚ) (dist den centers : List ℚ)
    (lRes hRes cutter : ℚ) : SearchOutcome :=
  let tests := generatePlans seed numSeg numTests fuel M L
  let skills := tests.map (fun t =>
    skillOf (extract_samples (scale_profile t dist den lRes hRes).1
      (scale_profile t dist den lRes hRes).2 centers cutter))
  { candidates := tests
  , plan := min_scaling_coeff tests skills
  , skills := skills }

/-- Claim C4: with the same fixed seed, two independent runs of the search
over the same profile and window set produce the identical candidate set,
select the identical stretch plan, and produce identical skill values. -/
theorem C4_determinism (skillOf : List ExtractedSample → SkillScore)
    (seed1 seed2 : ℕ) (numSeg numTests fuel : ℕ) (M L : ℚ)
    (dist den centers : List ℚ) (lRes hRes cutter : ℚ)
    (hseed : seed1 = seed2) :
    (alignmentSearch skillOf seed1 numSeg numTests fuel M L dist den centers
        lRes hRes cutter).candidates
      = (alignmentSearch skillOf seed2 numSeg numTests fuel M L dist den centers
        lRes hRes cutter).candidates ∧
    (alignmentSearch skillOf seed1 numSeg numTests fuel M L dist den centers
        lRes hRes cutter).plan
      = (alignmentSearch skillOf seed2 numSeg numTests fuel M L dist den centers
        lRes hRes cutter).plan ∧
    (alignmentSearch skillOf seed1 numSeg numTests fuel M L dist den centers
        lRes hRes cutter).skills
      = (alignmentSearch skillOf seed2 numSeg numTests fuel M L dist den centers
        lRes hRes cutter).skills := by
  rw [hseed]
  exact ⟨rfl, rfl, rfl⟩

/-- Witness for C4 at the paper seed 2019 with a small synthetic search. -/
theorem C4_determinism_witness :
    (alignmentSearch (fun _ => ⟨1, 0, 0, 0⟩) 2019 2 3 4 (3/20) (3/4)
        [0] [5] [0] 50 1 15).plan
      = (alignmentSearch (fun _ => ⟨1, 0, 0, 0⟩) 2019 2 3 4 (3/20) (3/4)
        [0] [5] [0] 50 1 15).plan :=
  (C4_determinism (fun _ => ⟨1, 0, 0, 0⟩) 2019 2019 2 3 4 (3/20) (3/4)
    [0] [5] [0] 50 1 15 rfl).2.1

/-! ## Classifier post-processing (Part 3, `classify_profile`)

The raw per-sample predictions are smoothed with
`temp_profile['layer_type'].rolling(window=3, min_periods=1).apply(lambda x: mode(x)[0])`.
The pandas default is `center=False`, so the window of width three is
TRAILING (the current sample and the two before it), truncated at the start
by `min_periods=1`; `scipy.stats.mode` returns the most frequent value and
breaks ties towards the smallest value. -/

/-- The number of occurrences of a value in a window. -/
def countIn (l : List ℕ) (v : ℕ) : ℕ :=
  (l.filter (fun x => decide (x = v))).length

/-- The statistical mode of a window following `scipy.stats.mode`: the most
frequent value, ties breaking towards the smallest value. -/
def listMode (l : List ℕ) : ℕ :=
  List.foldl (fun best x =>
      if countIn l x > countIn l best ∨ (countIn l x = countIn l best ∧ x < best) then x
      else best)
    (l.headD 0) l

/-- The trailing window of width three ending at an in-range position, as
produced by `rolling(window=3, min_periods=1)` with the pandas default
`center=False`. -/
def window3 (l : List ℕ) (i : ℕ) : List ℕ :=
  if i = 0 then [l.getD 0 0]
  else if i = 1 then [l.getD 0 0, l.getD 1 0]
  else [l.getD (i - 2) 0, l.getD (i - 1) 0, l.getD i 0]

/-- The smoothing step of `classify_profile`: the trailing rolling-mode
filter applied to the integer label series. -/
def rollingMode3 (l : List ℕ) : List ℕ :=
  List.map (fun i => listMode (window3 l i)) (List.range l.length)

/-- The centered window of width three around a position, which is what the
specification describes, truncated at the edges. -/
def window3Centered (l : List ℕ) (i : ℕ) : List ℕ :=
  if i = 0 then l.take 2 else (l.drop (i - 1)).take 3

/-- The centered rolling-mode filter stated by the spec, for comparison
against the code's trailing filter. -/
def rollingMode3Centered (l : List ℕ) : List ℕ :=
  List.map (fun i => listMode (window3Centered l i)) (List.range l.length)

/-- Counterexample to claim C8 as stated: the code's filter is not centered.
On the label series `[1, 1, 2, 2, 2]` the trailing filter of the code and
the centered filter described by the spec disagree (at position 2 the
trailing window is `[1, 1, 2]` with mode 1 while the centered window is
`[1, 2, 2]` with mode 2). -/
theorem C8_centered_counterexample :
    rollingMode3 [1, 1, 2, 2, 2] = [1, 1, 1, 2, 2] ∧
    rollingMode3Centered [1, 1, 2, 2, 2] = [1, 1, 2, 2, 2] ∧
    rollingMode3 [1, 1, 2, 2, 2] ≠ rollingMode3Centered [1, 1, 2, 2, 2] := by
  decide

theorem listMode_single (a : ℕ) : listMode [a] = a := by
  simp [listMode]

theorem listMode_pair (a : ℕ) : listMode [a, a] = a := by
  simp [listMode]

theorem listMode_aaa (a : ℕ) : listMode [a, a, a] = a := by
  simp [listMode]

theorem listMode_aab {a b : ℕ} (hba : b ≠ a) : listMode [a, a, b] = a := by
  have hca : countIn [a, a, b] a = 2 := by
    simp [countIn, List.filter, hba]
  have hcb : countIn [a, a, b] b = 1 := by
    simp [countIn, List.filter, Ne.symm hba]
  simp only [listMode, List.headD, List.foldl_cons, List.foldl_nil, ite_self]
  rw [hca, hcb]
  rw [if_neg]
  simp

theorem listMode_aba {a b : ℕ} (hba : b ≠ a) : listMode [a, b, a] = a := by
  have hca : countIn [a, b, a] a = 2 := by
    simp [countIn, List.filter, hba]
  have hcb : countIn [a, b, a] b = 1 := by
    simp [countIn, List.filter, Ne.symm hba]
  have hc2 : ¬(countIn [a, b, a] b > countIn [a, b, a] a ∨
      (countIn [a, b, a] b = countIn [a, b, a] a ∧ b < a)) := by
    rw [hca, hcb]
    simp
  rw [listMode]
  simp only [List.headD_cons, List.foldl_cons, List.foldl_nil, ite_self]
  rw [if_neg hc2, ite_self]

theorem listMode_baa {a b : ℕ} (hba : b ≠ a) : listMode [b, a, a] = a := by
  have hca : countIn [b, a, a] a = 2 := by
    simp [countIn, List.filter, hba]
  have hcb : countIn [b, a, a] b = 1 := by
    simp [countIn, List.filter, Ne.symm hba]
  have hc2 : countIn [b, a, a] a > countIn [b, a, a] b ∨
      (countIn [b, a, a] a = countIn [b, a, a] b ∧ a < b) :=
    Or.inl (by rw [hca, hcb]; norm_num)
  rw [listMode]
  simp only [List.headD_cons, List.foldl_cons, List.foldl_nil, ite_self]
  rw [if_pos hc2, ite_self]

/-- Claim C8 (amended): the smoothing of `classify_profile` is a trailing
(not centered) rolling-mode filter of width three samples with a minimum of
one period; it erases a single-sample label flip surrounded by samples of a
different label, so the smoothed series is constant. -/
theorem C8_smoothing (n k a b : ℕ) (hba : b ≠ a) (hk2 : 2 ≤ k) (hkn : k < n) :
    rollingMode3 (List.map (fun i : ℕ => if i = k then b else a) (List.range n))
      = List.map (fun _ : ℕ => a) (List.range n) := by
  have hlen : (List.map (fun i : ℕ => if i = k then b else a) (List.range n)).length = n := by
    rw [List.length_map, List.length_range]
  have hget : ∀ j, j < n →
      (List.map (fun i : ℕ => if i = k then b else a) (List.range n)).getD j 0
        = if j = k then b else a := by
    intro j hj
    rw [getD_map_of_lt (fun i : ℕ => if i = k then b else a) (List.range n) j 0 0
      (by rw [List.length_range]; exact hj)]
    congr 1
    rw [List.getD_eq_getElem?_getD, List.getElem?_range hj]
    rfl
  rw [rollingMode3, hlen]
  apply List.map_congr_left
  intro i hi
  have hin : i < n := List.mem_range.mp hi
  rcases Nat.lt_or_ge i 2 with hi2 | hi2
  · interval_cases i
    · rw [window3, if_pos rfl, hget 0 hin, if_neg (by omega), listMode_single]
    · rw [window3, if_neg (by omega), if_pos rfl, hget 0 (by omega), hget 1 hin,
        if_neg (by omega), if_neg (by omega), listMode_pair]
  · rw [window3, if_neg (by omega), if_neg (by omega),
      hget (i - 2) (by omega), hget (i - 1) (by omega), hget i hin]
    by_cases h0 : i = k
    · rw [if_neg (by omega), if_neg (by omega), if_pos h0, listMode_aab hba]
    · by_cases h1 : i = k + 1
      · rw [if_neg (by omega), if_pos (by omega), if_neg h0, listMode_aba hba]
      · by_cases h2 : i = k + 2
        · rw [if_pos (by omega), if_neg (by omega), if_neg h0, listMode_baa hba]
        · rw [if_neg (by omega), if_neg (by omega), if_neg h0, listMode_aaa]

/-- Witness for C8: a flip to depth hoar (label 3) at position 4 of an
eleven-sample faceted series (label 2) is erased by the trailing filter. -/
theorem C8_smoothing_witness :
    rollingMode3 (List.map (fun i : ℕ => if i = 4 then 3 else 2) (List.range 11))
      = List.map (fun _ : ℕ => 2) (List.range 11) :=
  C8_smoothing 11 4 2 3 (by decide) (by decide) (by decide)

/-! ## Part 5 radar propagation helpers

`snow_refractive_index` computes `sqrt((1 + 0.51*d/1000)**3)` and
`c_in_snow` computes `C * (1 + 0.51*d/1000)**(-1.5)`; both derive from the
same permittivity base.  Real-number powers stand in for the float powers. -/

/-- Embeds `snow_refractive_index`: the square root of the cubed
permittivity base of snow at the given density. -/
noncomputable def snow_refractive_index (snow_density : ℝ) : ℝ :=
  Real.sqrt ((1 + 0.51 * snow_density / 1000) ^ 3)

/-- Embeds `c_in_snow`: the vacuum speed of light divided by the
permittivity base raised to the power three halves. -/
noncomputable def c_in_snow (snow_density C : ℝ) : ℝ :=
  C * (1 + 0.51 * snow_density / 1000) ^ (-(1.5) : ℝ)

/-- Claim C9: for every density whose permittivity base is positive, the
speed of light in snow times the refractive index recovers the vacuum speed:
`c_in_snow(d, C) * snow_refractive_index(d) = C`. -/
theorem C9_speed_index (d C : ℝ) (h : 0 < 1 + 0.51 * d / 1000) :
    c_in_snow d C * snow_refractive_index d = C := by
  have h0 : (0 : ℝ) ≤ 1 + 0.51 * d / 1000 := le_of_lt h
  rw [c_in_snow, snow_refractive_index]
  rw [Real.sqrt_eq_rpow]
  rw [← Real.rpow_natCast (1 + 0.51 * d / 1000) 3]
  rw [← Real.rpow_mul h0]
  rw [mul_assoc, ← Real.rpow_add h]
  norm_num

/-- Witness for C9 at the representative snow density 300 kg per cubic
meter and the vacuum speed of light. -/
theorem C9_speed_index_witness :
    (0 : ℝ) < 1 + 0.51 * 300 / 1000 ∧
    c_in_snow 300 299792458 * snow_refractive_index 300 = 299792458 :=
  ⟨by norm_num, C9_speed_index 300 299792458 (by norm_num)⟩

/-! ## Part 5 bias-assignment cell

After the accumulation loop, the summary columns are assigned with
`summary_df['delta_h_smp'] = np.array(delta_h_smp)`,
`summary_df['delta_h_static'] = np.array(delta_h_static)`,
`summary_df['delta_h_w99'] = np.array(delta_h_static)`,
`summary_df['delta_h_error'] = summary_df['delta_h_smp'] - summary_df['delta_h_w99']`,
`summary_df['delta_h_error_static'] = summary_df['delta_h_smp'] - summary_df['delta_h_static']`.
Note the third line assigns the static array, not the accumulated
`delta_h_w99` list. -/

/-- The summary columns written by the bias-assignment cell. -/
structure Part5Summary where
  delta_h_smp : List ℚ
  delta_h_static : List ℚ
  delta_h_w99 : List ℚ
  delta_h_error : List ℚ
  delta_h_error_static : List ℚ
deriving DecidableEq

/-- Embeds the bias-assignment cell.  The per-profile W99 climatology biases
accumulated by the loop are received as `dW99` to record that the cell never
reads that list. -/
def assignSummary (dSmp dStatic dW99 : List ℚ) : Part5Summary :=
  let w99col := dStatic
  { delta_h_smp := dSmp
  , delta_h_static := dStatic
  , delta_h_w99 := w99col
  , delta_h_error := List.zipWith (fun x y => x - y) dSmp w99col
  , delta_h_error_static := List.zipWith (fun x y => x - y) dSmp dStatic }

/-- Claim C10: after the bias-assignment cell runs, the `delta_h_w99` column
holds the static-density bias values rather than the accumulated W99
climatology biases, the reported `delta_h_error` equals `delta_h_smp` minus
`delta_h_static` (and so coincides with `delta_h_error_static`), and the
whole summary is independent of the accumulated W99 list. -/
theorem C10_w99_column (dSmp dStatic dW99 dW99b : List ℚ)
    (hne : dStatic ≠ dW99) :
    (assignSummary dSmp dStatic dW99).delta_h_w99 = dStatic ∧
    (assignSummary dSmp dStatic dW99).delta_h_w99 ≠ dW99 ∧
    (assignSummary dSmp dStatic dW99).delta_h_error
        = List.zipWith (fun x y => x - y) dSmp dStatic ∧
    (assignSummary dSmp dStatic dW99).delta_h_error
        = (assignSummary dSmp dStatic dW99).delta_h_error_static ∧
    assignSummary dSmp dStatic dW99 = assignSummary dSmp dStatic dW99b :=
  ⟨rfl, hne, rfl, rfl, rfl⟩

/-- Witness for C10 at concrete bias arrays where the static and W99 values
differ: the column holds the static value, not the W99 value. -/
theorem C10_w99_column_witness :
    (assignSummary [1] [2] [3]).delta_h_w99 = [2] ∧
    (assignSummary [1] [2] [3]).delta_h_w99 ≠ [3] :=
  ⟨(C10_w99_column [1] [2] [3] [4] (by decide)).1,
   (C10_w99_column [1] [2] [3] [4] (by decide)).2.1⟩

end SMPSeaIce
